import Mathlib

/-!
Verification of the `roadfar` road-design core against its specification.

The Python sources under `core/alignment.py`, `core/design_standards.py` and
`gui/canvas.py` are shallowly embedded below: floating-point numbers become
real numbers, Python `raise` becomes `Except.error`, and the optional
numpy code paths are embedded through their pure-Python fallbacks (the two
branches compute the same real-number values, via `np.linspace(0,1,n+1)[i] =
i/n`).  Definitions follow the Python sources line by line; theorems settle
the specification's claims about them.
-/

namespace Roadfar

/-- A 2D point `(x, y)`, as `Point = Tuple[float, float]` in `core/alignment.py`. -/
abbrev Pt : Type := ℝ × ℝ

/-- `dist(a, b)` from `core/alignment.py`: Euclidean distance via `math.hypot`. -/
noncomputable def dist (a b : Pt) : ℝ :=
  Real.sqrt ((a.1 - b.1) ^ 2 + (a.2 - b.2) ^ 2)

/-- `math.atan2(y, x)`: the angle of the vector `(x, y)` in `(-π, π]`, with
`atan2(0, 0) = 0`.  Embedded as the argument of the complex number `x + y·i`,
which has exactly these conventions. -/
noncomputable def atan2 (y x : ℝ) : ℝ := Complex.arg ⟨x, y⟩

/-- Truncation toward zero, the rounding used by C and Python `math.fmod`. -/
noncomputable def truncTowardZero (x : ℝ) : ℤ :=
  if 0 ≤ x then ⌊x⌋ else ⌈x⌉

/-- `math.fmod(a, m)`: the remainder `a - m·trunc(a/m)`, with the sign of `a`. -/
noncomputable def fmod (a m : ℝ) : ℝ := a - m * truncTowardZero (a / m)

/-- `normalize_angle(a)` from `core/alignment.py`: normalize an angle to `(-π, π]`.
The source first takes `a = math.fmod(a, 2π)` and then shifts by `±2π`. -/
noncomputable def normalize_angle (a : ℝ) : ℝ :=
  if fmod a (2 * Real.pi) ≤ -Real.pi then fmod a (2 * Real.pi) + 2 * Real.pi
  else if Real.pi < fmod a (2 * Real.pi) then fmod a (2 * Real.pi) - 2 * Real.pi
  else fmod a (2 * Real.pi)

/-- `bearing(a, b)` from `core/alignment.py`. -/
noncomputable def bearing (a b : Pt) : ℝ := atan2 (b.2 - a.2) (b.1 - a.1)

/-! ### LineElement (`core/alignment.py`) -/

/-- The state of a `LineElement`: endpoints and the cached `length`. -/
structure Line where
  A : Pt
  B : Pt
  length : ℝ

/-- `LineElement.__init__`: store the endpoints and `length = dist(A, B)`. -/
noncomputable def mkLine (A B : Pt) : Line := ⟨A, B, dist A B⟩

/-- `LineElement.sample(step)`.  The numpy and pure-Python code paths both
produce the points `A + (B - A)·(i/n)` for `i = 0..n`. -/
noncomputable def Line.sample (l : Line) (step : ℝ) : List Pt :=
  if l.length ≤ 0 ∨ step ≤ 0 then
    if 0 < l.length then [l.A, l.B] else [l.A]
  else
    let n : ℕ := (max 1 ⌈l.length / step⌉).toNat
    (List.range (n + 1)).map fun i : ℕ =>
      (l.A.1 + (l.B.1 - l.A.1) * ((i : ℝ) / (n : ℝ)),
       l.A.2 + (l.B.2 - l.A.2) * ((i : ℝ) / (n : ℝ)))

/-- The dictionary produced by `LineElement.to_dict`. -/
structure LineDict where
  A : Pt
  B : Pt
  length : ℝ

/-- `LineElement.to_dict`. -/
noncomputable def Line.to_dict (l : Line) : LineDict := ⟨l.A, l.B, l.length⟩

/-- `LineElement.from_dict`: rebuild from the stored `A` and `B` only. -/
noncomputable def Line.from_dict (d : LineDict) : Line := mkLine d.A d.B

/-! ### ArcElement (`core/alignment.py`) -/

/-- The geometric failures raised by `ArcElement._compute_center_angles`
(`ValueError` in the source; the spec's error taxonomy calls both
`InfeasibleGeometry`). -/
inductive GeomErr
  /-- "Arc: chord length is zero (A and B identical)." -/
  | chordZero
  /-- "Arc: radius is too small for the chord length." -/
  | radiusTooSmall
  deriving DecidableEq

/-- The state of an `ArcElement` after `__init__`: inputs plus the derived
center, tangent angles, direction flag and arc length. -/
structure Arc where
  A : Pt
  B : Pt
  radius : ℝ
  side : String
  center : Pt
  start_angle : ℝ
  end_angle : ℝ
  ccw : Bool
  length : ℝ

/-- `ArcElement.__init__` together with `_compute_center_angles`:
validate the chord, place the center `h = sqrt(max(0, R² − (chord/2)²))`
off the chord midpoint toward `side`, take the two tangent angles by
`atan2` about the center, resolve the direction from the sign of the
normalized delta (flipped if `|delta| > π`), and set
`length = |radius · ang|` for the direction-adjusted `ang`. -/
noncomputable def mkArc (A B : Pt) (radius : ℝ) (side : String) : Except GeomErr Arc :=
  let side' := if side = "left" ∨ side = "right" then side else "left"
  let dx := B.1 - A.1
  let dy := B.2 - A.2
  let chord := Real.sqrt (dx ^ 2 + dy ^ 2)
  if chord = 0 then .error .chordZero
  else if |radius| < chord / 2 then .error .radiusTooSmall
  else
    let mx := (A.1 + B.1) / 2
    let my := (A.2 + B.2) / 2
    let h := Real.sqrt (max 0 (radius ^ 2 - (chord / 2) ^ 2))
    let ux := -dy / chord
    let uy := dx / chord
    let c : Pt := if side' = "left" then (mx + ux * h, my + uy * h)
                  else (mx - ux * h, my - uy * h)
    let a1 := atan2 (A.2 - c.2) (A.1 - c.1)
    let a2 := atan2 (B.2 - c.2) (B.1 - c.1)
    let delta := normalize_angle (a2 - a1)
    let ccw0 : Bool := decide (0 < delta)
    let ccw : Bool := if Real.pi < |delta| then !ccw0 else ccw0
    let ang0 := normalize_angle (a2 - a1)
    let ang1 := if ccw ∧ ang0 < 0 then ang0 + 2 * Real.pi else ang0
    let ang := if ¬ccw ∧ 0 < ang1 then ang1 - 2 * Real.pi else ang1
    .ok ⟨A, B, radius, side', c, a1, a2, ccw, |radius * ang|⟩

/-- The direction-adjusted signed angle of an arc: the local `ang` of
`ArcElement.__init__`, recomputed from the stored attributes
(`ang = normalize_angle(end − start)`, shifted by `±2π` according to the
resolved direction). -/
noncomputable def Arc.resolvedAng (arc : Arc) : ℝ :=
  let ang0 := normalize_angle (arc.end_angle - arc.start_angle)
  let ang1 := if arc.ccw ∧ ang0 < 0 then ang0 + 2 * Real.pi else ang0
  if ¬arc.ccw ∧ 0 < ang1 then ang1 - 2 * Real.pi else ang1

/-- The absolute angular span of an arc, `|ang|` — the span the spec's
`length = R × span` speaks about. -/
noncomputable def Arc.span (arc : Arc) : ℝ := |arc.resolvedAng|

/-- `ArcElement.sample(step)`.  Both numpy and fallback paths produce the
points at angles `start ± span·(i/n)`, `i = 0..n`. -/
noncomputable def Arc.sample (arc : Arc) (step : ℝ) : List Pt :=
  if arc.length ≤ 0 ∨ step ≤ 0 then [arc.A, arc.B]
  else
    let n : ℕ := (max 1 ⌈arc.length / step⌉).toNat
    if arc.ccw then
      let span0 := normalize_angle (arc.end_angle - arc.start_angle)
      let span := if span0 ≤ 0 then span0 + 2 * Real.pi else span0
      (List.range (n + 1)).map fun i : ℕ =>
        (arc.center.1 + arc.radius * Real.cos (arc.start_angle + span * ((i : ℝ) / (n : ℝ))),
         arc.center.2 + arc.radius * Real.sin (arc.start_angle + span * ((i : ℝ) / (n : ℝ))))
    else
      let span0 := normalize_angle (arc.start_angle - arc.end_angle)
      let span := if span0 ≤ 0 then span0 + 2 * Real.pi else span0
      (List.range (n + 1)).map fun i : ℕ =>
        (arc.center.1 + arc.radius * Real.cos (arc.start_angle - span * ((i : ℝ) / (n : ℝ))),
         arc.center.2 + arc.radius * Real.sin (arc.start_angle - span * ((i : ℝ) / (n : ℝ))))

/-- The dictionary produced by `ArcElement.to_dict`. -/
structure ArcDict where
  A : Pt
  B : Pt
  radius : ℝ
  side : String
  center : Pt
  start_angle : ℝ
  end_angle : ℝ
  ccw : Bool
  length : ℝ

/-- `ArcElement.to_dict`. -/
noncomputable def Arc.to_dict (arc : Arc) : ArcDict :=
  ⟨arc.A, arc.B, arc.radius, arc.side, arc.center, arc.start_angle,
   arc.end_angle, arc.ccw, arc.length⟩

/-- `ArcElement.from_dict`: reconstruct from `A`, `B`, `radius`, `side`
only (the derived fields are recomputed, and construction can fail again). -/
noncomputable def Arc.from_dict (d : ArcDict) : Except GeomErr Arc :=
  mkArc d.A d.B d.radius d.side

/-! ### ClothoidElement (`core/alignment.py`) -/

/-- Sum of the segment lengths of a polyline, as computed by the loop in
`ClothoidElement.__init__` (`for i: length += dist(poly[i], poly[i+1])`). -/
noncomputable def polyLength : List Pt → ℝ
  | a :: b :: rest => dist a b + polyLength (b :: rest)
  | _ => 0

/-- `ClothoidElement._build_poly`: a straight chord `P0 → P1` with a lateral
`sin(π·t)` offset toward `side`.  The numpy and fallback paths compute the
same points. -/
noncomputable def build_poly (P0 P1 : Pt) (radius spiral_length : ℝ)
    (samples : ℕ) (side : String) : List Pt :=
  let L := dist P0 P1
  if L ≤ 1e-9 then [P0]
  else
    let ux0 := -(P1.2 - P0.2) / L
    let uy0 := (P1.1 - P0.1) / L
    let u : Pt := if side = "right" then (-ux0, -uy0) else (ux0, uy0)
    let offset_scale := spiral_length / max 1 L * (1 / max 1 |radius|) * 0.5
    (List.range (samples + 1)).map fun i : ℕ =>
      let t := (i : ℝ) / (samples : ℝ)
      let off := Real.sin (Real.pi * t) * (L * offset_scale)
      (P0.1 + (P1.1 - P0.1) * t + u.1 * off, P0.2 + (P1.2 - P0.2) * t + u.2 * off)

/-- The state of a `ClothoidElement` after `__init__`: normalized inputs,
the cached approximation polyline and its cumulative length. -/
structure Clothoid where
  P0 : Pt
  P1 : Pt
  radius : ℝ
  spiral_length : ℝ
  samples : ℕ
  side : String
  poly : List Pt
  length : ℝ

/-- `ClothoidElement.__init__`: clamp `spiral_length` to `≥ 0` and `samples`
to `≥ 4`, default an unknown `side` to `'left'`, build the polyline and sum
its segment lengths. -/
noncomputable def mkClothoid (P0 P1 : Pt) (radius spiral_length : ℝ)
    (samples : ℤ) (side : String) : Clothoid :=
  let sl := max 0 spiral_length
  let n : ℕ := (max 4 samples).toNat
  let side' := if side = "left" ∨ side = "right" then side else "left"
  let poly := build_poly P0 P1 radius sl n side'
  ⟨P0, P1, radius, sl, n, side', poly, polyLength poly⟩

/-- The inner `while acc + seg >= step` loop of `ClothoidElement.sample`:
emit interpolated points every `step` of arc length along the segment
`prev → cur`, returning the emitted points and the updated `(acc, prev)`
state after the final `acc += seg; prev = cur` of the outer loop body.
Each iteration shortens the remaining sub-segment by exactly `step − acc`,
so for `step > 0` the loop runs at most `⌈(acc + seg)/step⌉` times; `fuel`
is any upper bound on that count (the caller passes a sufficient bound). -/
noncomputable def clothoidSegStep (step : ℝ) : ℕ → ℝ → Pt → Pt → List Pt × ℝ
  | 0, acc, prev, cur => ([], acc + dist prev cur)
  | fuel + 1, acc, prev, cur =>
    let seg := dist prev cur
    if step ≤ acc + seg then
      let need := step - acc
      let r := need / seg
      let p : Pt := (prev.1 + (cur.1 - prev.1) * r, prev.2 + (cur.2 - prev.2) * r)
      let rest := clothoidSegStep step fuel 0 p cur
      (p :: rest.1, rest.2)
    else ([], acc + seg)

/-- The outer `for` loop of `ClothoidElement.sample` over `poly[1:]`,
carrying the `(acc, prev)` state; segments of length `≤ 1e-12` are skipped. -/
noncomputable def resamplePoly (step : ℝ) : List Pt → ℝ → Pt → List Pt
  | [], _, _ => []
  | cur :: rest, acc, prev =>
    if dist prev cur ≤ 1e-12 then resamplePoly step rest acc cur
    else
      let out := clothoidSegStep step (⌈(acc + dist prev cur) / step⌉.toNat + 1) acc prev cur
      out.1 ++ resamplePoly step rest out.2 cur

/-- `ClothoidElement.sample(step)`: `[P0]` for an empty polyline, a copy of
the cached polyline for `step ≤ 0`, otherwise a re-sampling of the polyline
at arc-length intervals of `step`, always ending at the final vertex. -/
noncomputable def Clothoid.sample (c : Clothoid) (step : ℝ) : List Pt :=
  match c.poly with
  | [] => [c.P0]
  | p0 :: rest =>
    if step ≤ 0 then c.poly
    else
      let out := p0 :: resamplePoly step rest 0 p0
      if out.getLast? = c.poly.getLast? then out else out ++ [(c.poly.getLastD p0)]

/-- The dictionary produced by `ClothoidElement.to_dict` (no derived data). -/
structure ClothoidDict where
  P0 : Pt
  P1 : Pt
  radius : ℝ
  spiral_length : ℝ
  samples : ℤ
  side : String

/-- `ClothoidElement.to_dict`. -/
noncomputable def Clothoid.to_dict (c : Clothoid) : ClothoidDict :=
  ⟨c.P0, c.P1, c.radius, c.spiral_length, (c.samples : ℤ), c.side⟩

/-- `ClothoidElement.from_dict`: rebuild from the stored parameters. -/
noncomputable def Clothoid.from_dict (d : ClothoidDict) : Clothoid :=
  mkClothoid d.P0 d.P1 d.radius d.spiral_length d.samples d.side

/-! ### Alignment (`core/alignment.py`) -/

/-- The closed set of element variants held by an `Alignment`
(`line` / `arc` / `clothoid_poly`). -/
inductive Element
  | line (l : Line)
  | arc (a : Arc)
  | clothoid (c : Clothoid)

/-- The `length` attribute of an element (set by each `__init__`). -/
noncomputable def Element.length : Element → ℝ
  | .line l => l.length
  | .arc a => a.length
  | .clothoid c => c.length

/-- The state of an `Alignment`: name, ordered elements, and the cached
`total_length`. -/
structure Alignment where
  name : String
  elements : List Element
  total_length : ℝ

/-- `Alignment._rebuild_cache`: `total_length = sum(el.length for el in elements)`. -/
noncomputable def Alignment.rebuild_cache (a : Alignment) : Alignment :=
  { a with total_length := (a.elements.map Element.length).sum }

/-- `Alignment.__init__`. -/
noncomputable def mkAlignment (name : String) : Alignment :=
  Alignment.rebuild_cache ⟨name, [], 0⟩

/-- `Alignment.add_line`. -/
noncomputable def Alignment.add_line (a : Alignment) (A B : Pt) : Alignment :=
  Alignment.rebuild_cache { a with elements := a.elements ++ [.line (mkLine A B)] }

/-- Python `list.insert(i, x)` for a non-negative index: an index past the
end of the list appends (`take`/`drop` clamp exactly as Python does). -/
def pyInsert {α : Type} (xs : List α) (i : ℕ) (x : α) : List α :=
  xs.take i ++ x :: xs.drop i

/-- `Alignment.insert_element`: a negative index is first mapped to
`max(0, len + 1 + index)`, then Python `list.insert` clamps to the end. -/
noncomputable def Alignment.insert_element (a : Alignment) (index : ℤ) (el : Element) :
    Alignment :=
  let idx : ℤ := if index < 0 then max 0 ((a.elements.length : ℤ) + 1 + index) else index
  Alignment.rebuild_cache { a with elements := pyInsert a.elements idx.toNat el }

/-- `Alignment.remove_element`: delete only when `0 ≤ index < len`. -/
noncomputable def Alignment.remove_element (a : Alignment) (index : ℤ) : Alignment :=
  if 0 ≤ index ∧ index < (a.elements.length : ℤ) then
    Alignment.rebuild_cache { a with elements := a.elements.eraseIdx index.toNat }
  else a

/-- `Alignment.move_element`: only when `0 ≤ from < len` and `0 ≤ to ≤ len`,
pop the element and re-insert it at `to`. -/
noncomputable def Alignment.move_element (a : Alignment) (from_idx to_idx : ℤ) :
    Alignment :=
  if (0 ≤ from_idx ∧ from_idx < (a.elements.length : ℤ)) ∧
     (0 ≤ to_idx ∧ to_idx ≤ (a.elements.length : ℤ)) then
    match a.elements.get? from_idx.toNat with
    | some el =>
      Alignment.rebuild_cache
        { a with elements := pyInsert (a.elements.eraseIdx from_idx.toNat) to_idx.toNat el }
    | none => a
  else a

/-- `Alignment.add_arc_by_points_radius`: arc construction failures propagate. -/
noncomputable def Alignment.add_arc_by_points_radius (a : Alignment) (A B : Pt)
    (radius : ℝ) (side : String) : Except GeomErr Alignment :=
  match mkArc A B radius side with
  | .error e => .error e
  | .ok el =>
    .ok (Alignment.rebuild_cache { a with elements := a.elements ++ [.arc el] })

/-- `Alignment.add_clothoid`. -/
noncomputable def Alignment.add_clothoid (a : Alignment) (P0 P1 : Pt)
    (radius spiral_length : ℝ) (samples : ℤ) (side : String) : Alignment :=
  Alignment.rebuild_cache
    { a with elements := a.elements ++
        [.clothoid (mkClothoid P0 P1 radius spiral_length samples side)] }

/-- `Alignment.clear`. -/
noncomputable def Alignment.clear (a : Alignment) : Alignment :=
  Alignment.rebuild_cache { a with elements := [] }

/-- One entry of the `elements` list of a serialized alignment; an element
whose `type` tag is none of the known three is `unknown` and is skipped. -/
inductive ElementDict
  | line (d : LineDict)
  | arc (d : ArcDict)
  | clothoid (d : ClothoidDict)
  | unknown

/-- The dictionary produced by `Alignment.to_dict`. -/
structure AlignmentDict where
  name : String
  elements : List ElementDict

/-- The per-entry body of the `Alignment.from_dict` loop: rebuild one
element, skipping unknown tags and entries whose reconstruction raises
(`except Exception: continue`). -/
noncomputable def elemFromDict : ElementDict → Option Element
  | .line d => some (.line (Line.from_dict d))
  | .arc d =>
    match Arc.from_dict d with
    | .ok arc => some (.arc arc)
    | .error _ => none
  | .clothoid d => some (.clothoid (Clothoid.from_dict d))
  | .unknown => none

/-- `Alignment.from_dict`: rebuild the surviving elements in order, then
`_rebuild_cache`. -/
noncomputable def Alignment.from_dict (d : AlignmentDict) : Alignment :=
  Alignment.rebuild_cache ⟨d.name, d.elements.filterMap elemFromDict, 0⟩

/-! ### Design standards (`core/design_standards.py`)

`float('inf')` (returned by `min_radius_from_superelevation_and_friction`
when `e + f ≤ 0`) is embedded as `none : Option ℝ`, and the comparisons the
source makes against it (`x < inf` always true, `inf < x` always false,
`!= inf`) are spelled out at each use site. -/

/-- `DEFAULT_REACTION_TIME` (s). -/
noncomputable def DEFAULT_REACTION_TIME : ℝ := 2.5

/-- `DEFAULT_DECELERATION` (m/s²). -/
noncomputable def DEFAULT_DECELERATION : ℝ := 3.4

/-- `SUPERELEVATION['typical']`. -/
noncomputable def SUPERELEVATION_typical : ℝ := 0.04

/-- `SUPERELEVATION['max_recommended']`. -/
noncomputable def SUPERELEVATION_max_recommended : ℝ := 0.06

/-- `SUPERELEVATION['absolute_max']`. -/
noncomputable def SUPERELEVATION_absolute_max : ℝ := 0.08

/-- `FRICTION_TABLE`: (speed km/h, lateral friction), ascending in speed. -/
noncomputable def FRICTION_TABLE : List (ℝ × ℝ) :=
  [(20, 0.24), (30, 0.22), (50, 0.18), (70, 0.16), (90, 0.14), (120, 0.12)]

/-- `kmh_to_ms`. -/
noncomputable def kmh_to_ms (v_kmh : ℝ) : ℝ := v_kmh / 3.6

/-- `linear_interpolate`. -/
noncomputable def linear_interpolate (x x0 y0 x1 y1 : ℝ) : ℝ :=
  if x1 = x0 then 0.5 * (y0 + y1) else y0 + (x - x0) / (x1 - x0) * (y1 - y0)

/-- The `for i in range(len(table) - 1)` loop of `recommend_friction`:
return the interpolation on the first bracketing pair, else fall through to
the last table entry. -/
noncomputable def frictionLoop (s : ℝ) : List (ℝ × ℝ) → ℝ
  | (x0, y0) :: (x1, y1) :: rest =>
    if x0 ≤ s ∧ s ≤ x1 then linear_interpolate s x0 y0 x1 y1
    else frictionLoop s ((x1, y1) :: rest)
  | [(_, y)] => y
  | [] => 0

/-- `recommend_friction`: the table is already ascending, so the source's
`sorted(FRICTION_TABLE, ...)` is the identity on it. -/
noncomputable def recommend_friction (speed_kmh : ℝ) : ℝ :=
  if speed_kmh ≤ (FRICTION_TABLE.headD (0, 0)).1 then (FRICTION_TABLE.headD (0, 0)).2
  else if (FRICTION_TABLE.getLastD (0, 0)).1 ≤ speed_kmh then
    (FRICTION_TABLE.getLastD (0, 0)).2
  else frictionLoop speed_kmh FRICTION_TABLE

/-- `stopping_sight_distance`: `SSD = v·t + v²/(2a)` with `v` in m/s. -/
noncomputable def stopping_sight_distance (speed_kmh reaction_time decel : ℝ) : ℝ :=
  kmh_to_ms speed_kmh * reaction_time + kmh_to_ms speed_kmh ^ 2 / (2 * decel)

/-- `min_radius_from_superelevation_and_friction`:
`R = V²/(127(e+f))`, `float('inf')` (here `none`) when the denominator
is `≤ 0`; `e` and `f` default to the typical superelevation and the
recommended friction. -/
noncomputable def min_radius_from_superelevation_and_friction
    (speed_kmh : ℝ) (e f : Option ℝ) : Option ℝ :=
  let e' := e.getD SUPERELEVATION_typical
  let f' := f.getD (recommend_friction speed_kmh)
  if 127 * (e' + f') ≤ 0 then none
  else some (speed_kmh ^ 2 / (127 * (e' + f')))

/-- `recommend_radius_range`: `(r_min, r_max)`; both are `inf` (`none`)
when the superelevation-implied minimum is `inf`, since then
`r_min = max(3, max(baseline, inf·0.2)) = inf` and
`r_max = max(inf + 1, baseline_max) = inf`. -/
noncomputable def recommend_radius_range (chord_length speed_kmh : ℝ) :
    Option ℝ × Option ℝ :=
  let chord := max 0 chord_length
  let baseline_min := max 3 (chord / 8)
  let baseline_max := max 30 (chord * 8)
  match min_radius_from_superelevation_and_friction speed_kmh none none with
  | none => (none, none)
  | some r_from_sup =>
    let r_min := max 3 (max baseline_min (r_from_sup * 0.2))
    (some r_min, some (max (r_min + 1) baseline_max))

/-- `recommend_spiral_length_range`: `Ls ∈ [max(3, 0.04R), min(max(10, 0.15R), 200)]`,
halving the lower bound if it exceeds the upper. -/
noncomputable def recommend_spiral_length_range (radius speed_kmh : ℝ) : ℝ × ℝ :=
  let R := max 0 radius
  let Ls_min := max 3 (0.04 * R)
  let Ls_max := min (max 10 (0.15 * R)) 200
  if Ls_max < Ls_min then (Ls_max * 0.5, Ls_max) else (Ls_min, Ls_max)

/-- `recommend_superelevation`. -/
noncomputable def recommend_superelevation (speed_kmh : ℝ) : ℝ :=
  if speed_kmh ≤ 50 then SUPERELEVATION_typical
  else if speed_kmh ≤ 100 then
    min SUPERELEVATION_max_recommended (SUPERELEVATION_typical + 0.01)
  else min SUPERELEVATION_absolute_max (SUPERELEVATION_typical + 0.02)

/-- `recommend_label_interval`. -/
noncomputable def recommend_label_interval (speed_kmh : ℝ) : ℝ :=
  if speed_kmh ≤ 40 then 5 else if speed_kmh ≤ 80 then 10 else 20

/-- The hard errors `validate_curve_parameters` can append (each value
stands for one Persian message string of the source). -/
inductive VErr
  /-- arc branch: "radius must be a number greater than zero". -/
  | radiusNonpositive
  /-- arc branch: "tangent distance exceeds 2×R". -/
  | chordTooLong
  /-- spiral branch: "central radius must be greater than zero". -/
  | centralRadiusNonpositive
  /-- spiral branch: "spiral_length must be greater than zero". -/
  | spiralLengthNonpositive
  /-- else branch: "unknown curve type". -/
  | unknownCurveType
  deriving DecidableEq

/-- The non-fatal warnings `validate_curve_parameters` can append. -/
inductive VWarn
  | radiusBelowRange
  | radiusAboveRange
  | radiusSmallVsSuperelevation
  | chordLargeVsRadius
  | spiralBelowRange
  | spiralAboveRange
  | headingChangeLarge
  deriving DecidableEq

/-- The `suggestions` sub-dictionary; `Option` fields are keys that only
some branches insert, and `none` components of the ranges stand for
`float('inf')`. -/
structure Suggestions where
  chord_length_m : ℝ
  radius_range_m : Option ℝ × Option ℝ
  ssd_m : ℝ
  recommended_e : ℝ
  recommended_f : ℝ
  label_interval_m : ℝ
  min_radius_from_superelevation : Option (Option ℝ)
  spiral_length_range_m : Option (ℝ × ℝ)

/-- The dictionary returned by `validate_curve_parameters`, always carrying
the four keys `ok`, `errors`, `warnings`, `suggestions`. -/
structure VResult where
  ok : Bool
  errors : List VErr
  warnings : List VWarn
  suggestions : Suggestions

/-- The `params` argument: `params.get('radius', 0.0)` /
`params.get('spiral_length', 0.0)`. -/
structure CurveParams where
  radius : Option ℝ
  spiral_length : Option ℝ

/-- `x < y` against a possibly-infinite `y` (`none` = `float('inf')`). -/
noncomputable def ltOpt (x : ℝ) (y : Option ℝ) : Bool :=
  match y with
  | none => true
  | some v => decide (x < v)

/-- `y < x` against a possibly-infinite `y` (`none` = `float('inf')`). -/
noncomputable def gtOpt (x : ℝ) (y : Option ℝ) : Bool :=
  match y with
  | none => false
  | some v => decide (v < x)

/-- The `while dh > π: dh = abs(dh - 2π)` loop used on the heading delta.
Each iteration reduces `dh` toward `[0, π]`; `fuel` bounds the iteration
count (the caller passes a sufficient bound). -/
noncomputable def headingFold : ℕ → ℝ → ℝ
  | 0, dh => dh
  | fuel + 1, dh =>
    if Real.pi < dh then headingFold fuel |dh - 2 * Real.pi| else dh

/-- Python `str.lower()`: lower-case every character. -/
def strLower (s : String) : String := ⟨s.data.map Char.toLower⟩

/-- Drop leading whitespace characters from a character list. -/
def dropLeadingWs : List Char → List Char
  | [] => []
  | c :: cs => if c.isWhitespace then dropLeadingWs cs else c :: cs

/-- Python `str.strip()`: remove whitespace from both ends. -/
def strStrip (s : String) : String :=
  ⟨(dropLeadingWs (dropLeadingWs s.data.reverse)).reverse⟩

/-- The curve types accepted by the spiral branch. -/
def isSpiralType (t : String) : Bool :=
  t = "spiral_arc_spiral" ∨ t = "spiral" ∨ t = "clothoid" ∨ t = "sas"

/-- `validate_curve_parameters` from `core/design_standards.py`.  The source
appends to two separate lists `errors` and `warnings` while walking one
branch structure; the lists are reproduced here branch by branch, in the
source's append order.  No arithmetic on ℝ can raise, so the
`except`-path (one generic error) is unreachable in the embedding, and the
trailing `ok = (len(errors) == 0)` is taken verbatim. -/
noncomputable def validate_curve_parameters (P_left P_right : Pt)
    (left_heading_rad right_heading_rad : Option ℝ) (curve_type : String)
    (params : CurveParams) (speed_kmh : ℝ) : VResult :=
  let chord := Real.sqrt ((P_right.1 - P_left.1) ^ 2 + (P_right.2 - P_left.2) ^ 2)
  let rng := recommend_radius_range chord speed_kmh
  let t := strStrip (strLower curve_type)
  let R := params.radius.getD 0
  let Ls := params.spiral_length.getD 0
  let minRsup := min_radius_from_superelevation_and_friction speed_kmh none none
  let sRng := recommend_spiral_length_range R speed_kmh
  let errors : List VErr :=
    if t = "arc" then
      if R ≤ 0 then [.radiusNonpositive]
      else if 2 * R + 1e-9 < chord then [.chordTooLong]
      else []
    else if isSpiralType t then
      if R ≤ 0 then [.centralRadiusNonpositive]
      else if Ls ≤ 0 then [.spiralLengthNonpositive]
      else []
    else [.unknownCurveType]
  let warnings : List VWarn :=
    (if t = "arc" ∧ 0 < R then
      (if ltOpt R rng.1 then [.radiusBelowRange] else []) ++
      (if gtOpt R rng.2 then [.radiusAboveRange] else []) ++
      (match minRsup with
       | some v => if R < 0.2 * v then [.radiusSmallVsSuperelevation] else []
       | none => [])
     else if isSpiralType t ∧ 0 < R then
      (if 20 * R < chord then [.chordLargeVsRadius] else []) ++
      (if 0 < Ls then
        (if Ls < sRng.1 then [.spiralBelowRange] else []) ++
        (if sRng.2 < Ls then [.spiralAboveRange] else [])
       else [])
     else []) ++
    (match left_heading_rad, right_heading_rad with
     | some lh, some rh =>
       let dh := headingFold (⌈|rh - lh|⌉.toNat + 1) |rh - lh|
       if Real.pi * 0.95 < dh then [.headingChangeLarge] else []
     | _, _ => [])
  { ok := decide (errors = [])
    errors := errors
    warnings := warnings
    suggestions :=
      { chord_length_m := chord
        radius_range_m := rng
        ssd_m := stopping_sight_distance speed_kmh DEFAULT_REACTION_TIME DEFAULT_DECELERATION
        recommended_e := recommend_superelevation speed_kmh
        recommended_f := recommend_friction speed_kmh
        label_interval_m := recommend_label_interval speed_kmh
        min_radius_from_superelevation :=
          if t = "arc" ∧ 0 < R then some minRsup else none
        spiral_length_range_m :=
          if isSpiralType t ∧ 0 < R then some sRng else none } }

/-! ### Canvas surface model (`gui/canvas.py`)

The triangulation is embedded through its deterministic pure-Python path:
scipy's `Delaunay` is an optional external dependency and
`_triangulate_fallback` is the source's own algorithm, used whenever scipy
is unavailable.  The `_cached_triangles` / `_points_hash` memoization only
re-serves an identical previous result, so it is dropped from the pure
embedding. -/

/-- A 3D vertex `(x, y, z)`. -/
abbrev Pt3 : Type := ℝ × ℝ × ℝ

/-- A triangle of the mesh: three coordinate-plus-elevation vertices. -/
abbrev Tri : Type := Pt3 × Pt3 × Pt3

/-- A contour segment: a pair of 2D endpoints. -/
abbrev Seg : Type := Pt × Pt

/-- One entry of `CanvasWidget.shapes`: either a surveyed point (with its
elevation) or any other shape kind, which the surface code skips. -/
inductive Shape
  | point (x y z : ℝ)
  | other

/-- The `get_z_at` closure of `_triangulate_fallback`: the elevation of the
point nearest to `pt` by squared planar distance (first minimum wins). -/
noncomputable def nearestZ (coords : List Pt) (zs : List ℝ) (pt : Pt) : ℝ :=
  let best := (coords.zip zs).foldl
    (fun acc cz =>
      let d := (cz.1.1 - pt.1) ^ 2 + (cz.1.2 - pt.2) ^ 2
      match acc with
      | none => some (d, cz.2)
      | some (bd, bz) => if d < bd then some (d, cz.2) else some (bd, bz))
    none
  match best with
  | some (_, z) => z
  | none => 0

/-- `_triangulate_fallback`: a fan of triangles around the centroid,
pairing each point with the next in ring order. -/
noncomputable def triangulate_fallback (coords : List Pt) (zs : List ℝ) : List Tri :=
  if coords.length < 3 then []
  else
    let cx := (coords.map Prod.fst).sum / coords.length
    let cy := (coords.map Prod.snd).sum / coords.length
    (List.range coords.length).map fun i =>
      let a := coords.getD i (0, 0)
      let b := coords.getD ((i + 1) % coords.length) (0, 0)
      ((cx, cy, nearestZ coords zs (cx, cy)),
       (a.1, a.2, nearestZ coords zs a),
       (b.1, b.2, nearestZ coords zs b))

/-- `CanvasWidget.compute_triangulation` (non-scipy path): fewer than 3
points yield an empty mesh; otherwise the fallback fan triangulation is
concatenated with the manual triangles, whose index triples must all hit
point shapes (any failing lookup is skipped by the `except: continue`). -/
noncomputable def compute_triangulation (shapes : List Shape)
    (manual : List (ℕ × ℕ × ℕ)) : List Tri :=
  let pts := shapes.filterMap fun s =>
    match s with
    | .point x y z => some (x, y, z)
    | .other => none
  if pts.length < 3 then []
  else
    let coords := pts.map fun p => (p.1, p.2.1)
    let zs := pts.map fun p => p.2.2
    let manual_tris := manual.filterMap fun ijk =>
      match shapes.get? ijk.1, shapes.get? ijk.2.1, shapes.get? ijk.2.2 with
      | some (.point x0 y0 z0), some (.point x1 y1 z1), some (.point x2 y2 z2) =>
        some ((x0, y0, z0), (x1, y1, z1), (x2, y2, z2))
      | _, _, _ => none
    triangulate_fallback coords zs ++ manual_tris

/-- `min` over a non-empty Python list (`min(zs)`); `0` for `[]`, which the
callers never pass. -/
noncomputable def listMin : List ℝ → ℝ
  | [] => 0
  | x :: xs => xs.foldl min x

/-- `max` over a non-empty Python list (`max(zs)`); `0` for `[]`. -/
noncomputable def listMax : List ℝ → ℝ
  | [] => 0
  | x :: xs => xs.foldl max x

/-- Python `round(x, 9)` as used on contour levels.  (Mathlib's `round` is
round-half-up while Python rounds half to even; the two differ only on
exact ties at the 9th decimal.) -/
noncomputable def round9 (x : ℝ) : ℝ := (round (x * 10 ^ 9) : ℤ) / 10 ^ 9

/-- The main-level loop of `compute_contours`:
`L = floor(minz/interval)·interval; while L ≤ maxz + 1e-9: append round(L, 9); L += interval`.
For `interval > 0` the loop runs `⌊(maxz + 1e-9 − start)/interval⌋ + 1`
times, which is the closed form used here (the source never reaches this
code with `interval ≤ 0`; with such an interval its `while` would not
terminate). -/
noncomputable def contourLevels (minz maxz interval : ℝ) : List ℝ :=
  let start := ↑⌊minz / interval⌋ * interval
  let count := (⌊(maxz + 1e-9 - start) / interval⌋ + 1).toNat
  (List.range count).map fun k : ℕ => round9 (start + (k : ℝ) * interval)

/-- The `sub_divisions > 0` refinement of the level list: between each
consecutive pair of main levels insert `sub` evenly spaced levels, then
re-append the final main level. -/
noncomputable def subLevels (sub : ℕ) : List ℝ → List ℝ
  | a :: b :: rest =>
    (a :: (List.range sub).map fun j : ℕ =>
        round9 (a + ((j : ℝ) + 1) * ((b - a) / ((sub : ℝ) + 1)))) ++
      subLevels sub (b :: rest)
  | [x] => [x]
  | [] => []

/-- The inner edge scan of `compute_contours` for one `(triangle, level)`
pair: each edge whose endpoints straddle the level (skipping near-level
edges, `|Δz| < 1e-12`) contributes one interpolated crossing point; the
first two points form a segment if they are at least `1e-9` apart. -/
noncomputable def triLevelSeg (tri : Tri) (lev : ℝ) : Option Seg :=
  let verts := [tri.1, tri.2.1, tri.2.2]
  let pts_on := (List.range 3).filterMap fun i =>
    let a := verts.getD i (0, 0, 0)
    let b := verts.getD ((i + 1) % 3) (0, 0, 0)
    let za := a.2.2
    let zb := b.2.2
    if (za < lev ∧ zb < lev) ∨ (lev < za ∧ lev < zb) then none
    else if |zb - za| < 1e-12 then none
    else
      let t := (lev - za) / (zb - za)
      if 0 ≤ t ∧ t ≤ 1 then
        some (a.1 + (b.1 - a.1) * t, a.2.1 + (b.2.1 - a.2.1) * t)
      else none
  match pts_on with
  | pA :: pB :: _ =>
    if 1e-9 < Real.sqrt ((pA.1 - pB.1) ^ 2 + (pA.2 - pB.2) ^ 2) then some (pA, pB)
    else none
  | _ => none

/-- `CanvasWidget.compute_contours` (with explicit `main_interval` and
`sub_divisions` arguments, as after the source's `None` defaulting): an
empty mesh or a flat mesh yields an empty dictionary; otherwise each level
maps to the segments its plane cuts out of the mesh, in triangle order.
The dictionary `{lev: [] for lev in levels}` keys each distinct level once,
in first-appearance order. -/
noncomputable def compute_contours (shapes : List Shape)
    (manual : List (ℕ × ℕ × ℕ)) (main_interval : ℝ) (sub_divisions : ℕ) :
    List (ℝ × List Seg) :=
  let triangles := compute_triangulation shapes manual
  if triangles = [] then []
  else
    let zs := (triangles.map fun t => [t.1.2.2, t.2.1.2.2, t.2.2.2.2]).flatten
    let minz := listMin zs
    let maxz := listMax zs
    if minz = maxz then []
    else
      let levels0 := contourLevels minz maxz main_interval
      let levels := if 0 < sub_divisions then subLevels sub_divisions levels0 else levels0
      levels.eraseDups.map fun lev =>
        (lev, triangles.filterMap fun tri => triLevelSeg tri lev)

/-- The cache invariant of an `Alignment`: the cached `total_length` is the
sum of the `length` fields of the elements currently in the sequence. -/
noncomputable def alignInv (a : Alignment) : Prop :=
  a.total_length = (a.elements.map Element.length).sum

/-! ### Helper lemmas -/

lemma dist_nonneg' (a b : Pt) : 0 ≤ dist a b := Real.sqrt_nonneg _

lemma truncTowardZero_gap (x : ℝ) :
    -1 < x - truncTowardZero x ∧ x - truncTowardZero x < 1 := by
  unfold truncTowardZero
  split
  · constructor
    · have := Int.sub_one_lt_floor x
      linarith [Int.floor_le x]
    · linarith [Int.lt_floor_add_one x]
  · constructor
    · linarith [Int.ceil_lt_add_one x]
    · linarith [Int.le_ceil x]

lemma fmod_bounds {m : ℝ} (hm : 0 < m) (a : ℝ) :
    -m < fmod a m ∧ fmod a m < m := by
  have h := truncTowardZero_gap (a / m)
  have hne : m ≠ 0 := ne_of_gt hm
  have heq : fmod a m = m * (a / m - truncTowardZero (a / m)) := by
    unfold fmod; field_simp
  constructor
  · rw [heq]
    nlinarith [h.1, h.2]
  · rw [heq]
    nlinarith [h.1, h.2]

lemma fmod_sub_int (a m : ℝ) : ∃ k : ℤ, fmod a m = a - m * k :=
  ⟨truncTowardZero (a / m), rfl⟩

lemma normalize_angle_mem (a : ℝ) :
    -Real.pi < normalize_angle a ∧ normalize_angle a ≤ Real.pi := by
  have hpi := Real.pi_pos
  have hb := fmod_bounds (by linarith : (0:ℝ) < 2 * Real.pi) a
  unfold normalize_angle
  split
  · constructor <;> linarith [hb.1, hb.2]
  · split
    · constructor <;> linarith [hb.1, hb.2]
    · constructor <;> linarith [hb.1, hb.2]

lemma normalize_angle_sub_int (a : ℝ) :
    ∃ k : ℤ, normalize_angle a = a - 2 * Real.pi * k := by
  obtain ⟨k0, hk0⟩ := fmod_sub_int a (2 * Real.pi)
  unfold normalize_angle
  split
  · exact ⟨k0 - 1, by push_cast; rw [hk0]; ring⟩
  · split
    · exact ⟨k0 + 1, by push_cast; rw [hk0]; ring⟩
    · exact ⟨k0, by rw [hk0]⟩

/-- On the interval `(-2π, 2π)`, `normalize_angle` vanishes only at `0`. -/
lemma normalize_angle_eq_zero {a : ℝ} (h1 : -(2 * Real.pi) < a)
    (h2 : a < 2 * Real.pi) (h0 : normalize_angle a = 0) : a = 0 := by
  obtain ⟨k, hk⟩ := normalize_angle_sub_int a
  rw [h0] at hk
  have ha : a = 2 * Real.pi * k := by linarith
  have hpi := Real.pi_pos
  have hk1 : (k : ℝ) < 1 := by nlinarith
  have hk2 : (-1 : ℝ) < k := by nlinarith
  have hk1' : k < 1 := by exact_mod_cast hk1
  have hk2' : (-1 : ℤ) < k := by exact_mod_cast hk2
  have hk0 : k = 0 := by omega
  rw [hk0] at ha
  simpa using ha

lemma chord_eq_dist (A B : Pt) :
    Real.sqrt ((B.1 - A.1) ^ 2 + (B.2 - A.2) ^ 2) = dist A B := by
  unfold dist
  congr 1
  ring

lemma dist_comm' (A B : Pt) : dist A B = dist B A := by
  unfold dist
  congr 1
  ring

lemma dist_self' (A : Pt) : dist A A = 0 := by
  simp [dist]

lemma dist_x_axis (x : ℝ) (hx : 0 ≤ x) : dist ((0 : ℝ), (0 : ℝ)) (x, (0 : ℝ)) = x := by
  unfold dist
  rw [show ((0 : ℝ) - x) ^ 2 + ((0 : ℝ) - 0) ^ 2 = x ^ 2 by ring]
  exact Real.sqrt_sq hx

lemma dist_0010 : dist ((0 : ℝ), (0 : ℝ)) ((1 : ℝ), (0 : ℝ)) = 1 :=
  dist_x_axis 1 (by norm_num)

lemma dist_0020 : dist ((0 : ℝ), (0 : ℝ)) ((2 : ℝ), (0 : ℝ)) = 2 :=
  dist_x_axis 2 (by norm_num)

lemma pyInsert_length {α : Type} (xs : List α) (i : ℕ) (x : α) :
    (pyInsert xs i x).length = xs.length + 1 := by
  unfold pyInsert
  simp only [List.length_append, List.length_cons, List.length_take, List.length_drop]
  omega

lemma mem_pyInsert {α : Type} (xs : List α) (i : ℕ) (x : α) : x ∈ pyInsert xs i x := by
  unfold pyInsert
  simp

lemma alignInv_rebuild (x : Alignment) : alignInv (Alignment.rebuild_cache x) := rfl

lemma mkArc_eq_error_chordZero (A B : Pt) (r : ℝ) (s : String)
    (h0 : dist A B = 0) : mkArc A B r s = .error .chordZero := by
  simp only [mkArc]
  rw [chord_eq_dist, if_pos h0]

lemma mkArc_eq_error_radiusTooSmall (A B : Pt) (r : ℝ) (s : String)
    (h0 : dist A B ≠ 0) (h1 : |r| < dist A B / 2) :
    mkArc A B r s = .error .radiusTooSmall := by
  simp only [mkArc]
  rw [chord_eq_dist, if_neg h0, if_pos h1]

lemma mkArc_ok_ex (A B : Pt) (r : ℝ) (s : String)
    (h0 : dist A B ≠ 0) (h1 : ¬ |r| < dist A B / 2) :
    ∃ arc, mkArc A B r s = .ok arc := by
  simp only [mkArc]
  rw [chord_eq_dist, if_neg h0, if_neg h1]
  exact ⟨_, rfl⟩

lemma mkArc_isOk_of (A B : Pt) (r : ℝ) (s : String)
    (h0 : dist A B ≠ 0) (h1 : ¬ |r| < dist A B / 2) :
    (mkArc A B r s).isOk = true := by
  obtain ⟨arc, harc⟩ := mkArc_ok_ex A B r s h0 h1
  rw [harc]
  rfl

lemma mkArc_side_invariant (A B : Pt) (r : ℝ) (s : String) :
    mkArc A B r (if s = "left" ∨ s = "right" then s else "left") = mkArc A B r s := by
  by_cases hs : s = "left" ∨ s = "right"
  · rw [if_pos hs]
  · rw [if_neg hs]
    simp only [mkArc]
    simp [hs]

lemma mkArc_ok_fields (A B : Pt) (r : ℝ) (s : String) (arc : Arc)
    (h : mkArc A B r s = .ok arc) :
    arc.A = A ∧ arc.B = B ∧ arc.radius = r ∧
      arc.side = (if s = "left" ∨ s = "right" then s else "left") := by
  by_cases h0 : dist A B = 0
  · rw [mkArc_eq_error_chordZero A B r s h0] at h
    exact absurd h (by simp)
  by_cases h1 : |r| < dist A B / 2
  · rw [mkArc_eq_error_radiusTooSmall A B r s h0 h1] at h
    exact absurd h (by simp)
  · simp only [mkArc] at h
    rw [chord_eq_dist, if_neg h0, if_neg h1] at h
    simp only [Except.ok.injEq] at h
    rw [← h]
    exact ⟨rfl, rfl, rfl, rfl⟩

lemma mkArc_roundtrip (A B : Pt) (r : ℝ) (s : String) (arc : Arc)
    (h : mkArc A B r s = .ok arc) :
    mkArc arc.A arc.B arc.radius arc.side = .ok arc := by
  obtain ⟨hA, hB, hr, hside⟩ := mkArc_ok_fields A B r s arc h
  rw [hA, hB, hr, hside, mkArc_side_invariant]
  exact h

lemma side_norm_idem (s : String) :
    (if (if s = "left" ∨ s = "right" then s else "left") = "left" ∨
        (if s = "left" ∨ s = "right" then s else "left") = "right"
      then (if s = "left" ∨ s = "right" then s else "left") else "left") =
      (if s = "left" ∨ s = "right" then s else "left") := by
  by_cases hs : s = "left" ∨ s = "right"
  · rw [if_pos hs, if_pos hs]
  · rw [if_neg hs, if_pos (Or.inl rfl)]

lemma mkClothoid_roundtrip (P0 P1 : Pt) (r sl : ℝ) (n : ℤ) (s : String) :
    Clothoid.from_dict (Clothoid.to_dict (mkClothoid P0 P1 r sl n s)) =
      mkClothoid P0 P1 r sl n s := by
  have hsl : max 0 (max 0 sl) = max 0 sl := by
    rw [← max_assoc, max_self]
  have hn : (max 4 (((max 4 n).toNat : ℤ))).toNat = (max 4 n).toNat := by
    have h4 : (4 : ℤ) ≤ max 4 n := le_max_left _ _
    rw [Int.toNat_of_nonneg (by linarith)]
    rw [max_eq_right h4]
  show mkClothoid P0 P1 r (max 0 sl) (((max 4 n).toNat : ℤ))
      (if s = "left" ∨ s = "right" then s else "left") = mkClothoid P0 P1 r sl n s
  simp only [mkClothoid]
  rw [hsl, hn, side_norm_idem]

/-- `.ok` is definitionally `decide (errors = [])` on the result record. -/
lemma validate_ok_eq (P_left P_right : Pt) (lh rh : Option ℝ) (ct : String)
    (params : CurveParams) (speed : ℝ) :
    (validate_curve_parameters P_left P_right lh rh ct params speed).ok =
      decide ((validate_curve_parameters P_left P_right lh rh ct params speed).errors = []) :=
  rfl

/-- The `errors` list of `validate_curve_parameters`, by branch. -/
lemma validate_errors_eq (P_left P_right : Pt) (lh rh : Option ℝ) (ct : String)
    (params : CurveParams) (speed : ℝ) :
    (validate_curve_parameters P_left P_right lh rh ct params speed).errors =
      (if strStrip (strLower ct) = "arc" then
        if params.radius.getD 0 ≤ 0 then [VErr.radiusNonpositive]
        else if 2 * params.radius.getD 0 + 1e-9 <
            Real.sqrt ((P_right.1 - P_left.1) ^ 2 + (P_right.2 - P_left.2) ^ 2) then
          [VErr.chordTooLong]
        else []
      else if isSpiralType (strStrip (strLower ct)) then
        if params.radius.getD 0 ≤ 0 then [VErr.centralRadiusNonpositive]
        else if params.spiral_length.getD 0 ≤ 0 then [VErr.spiralLengthNonpositive]
        else []
      else [VErr.unknownCurveType]) :=
  rfl

/-! ### C9 -/

/-- C9: `validate_curve_parameters` is a total function into the record
with the four fields `ok`, `errors`, `warnings`, `suggestions` (so it
returns normally on every input), and its `ok` flag is `true` exactly when
the `errors` list is empty. -/
theorem C9_validate_total_ok_iff_no_errors (P_left P_right : Pt)
    (lh rh : Option ℝ) (ct : String) (params : CurveParams) (speed : ℝ) :
    (validate_curve_parameters P_left P_right lh rh ct params speed).ok = true ↔
      (validate_curve_parameters P_left P_right lh rh ct params speed).errors = [] := by
  rw [validate_ok_eq]
  exact decide_eq_true_iff

/-! ### C4 -/

/-- C4 (amended): for a line of positive length and `step > 0`, `sample`
emits `ceil(length/step) + 1` (not `ceil(length/step)`) uniformly spaced
points, starting at `A` and ending at `B`, with consecutive points exactly
`length/n ≤ step` apart (`n = ceil(length/step)`); a line of length 0
returns the single point `[A]`. -/
theorem C4_line_sample_points (A B : Pt) (step : ℝ) (hstep : 0 < step) :
    (0 < dist A B →
      ((mkLine A B).sample step).length = (⌈dist A B / step⌉).toNat + 1 ∧
      ((mkLine A B).sample step).head? = some A ∧
      ((mkLine A B).sample step).getLast? = some B ∧
      (∀ i : ℕ, ∀ p q : Pt, ((mkLine A B).sample step)[i]? = some p →
        ((mkLine A B).sample step)[i+1]? = some q →
        dist p q = dist A B / ((⌈dist A B / step⌉).toNat : ℝ) ∧ dist p q ≤ step)) ∧
    (dist A B = 0 → (mkLine A B).sample step = [A]) := by
  have hlen : (mkLine A B).length = dist A B := rfl
  constructor
  · intro hpos
    have hceil1 : 1 ≤ ⌈dist A B / step⌉ := Int.one_le_ceil_iff.mpr (div_pos hpos hstep)
    have hmax : max 1 ⌈dist A B / step⌉ = ⌈dist A B / step⌉ := max_eq_right hceil1
    set n : ℕ := (⌈dist A B / step⌉).toNat with hn
    have hn1 : 1 ≤ n := by
      rw [hn]
      omega
    have hnR : (0 : ℝ) < n := by
      have h0 : 0 < n := hn1
      exact_mod_cast h0
    have hsample : (mkLine A B).sample step =
        (List.range (n + 1)).map (fun i : ℕ =>
          (A.1 + (B.1 - A.1) * ((i : ℝ) / (n : ℝ)),
           A.2 + (B.2 - A.2) * ((i : ℝ) / (n : ℝ)))) := by
      unfold Line.sample
      rw [if_neg]
      · simp only [mkLine, hmax, hn]
      · push_neg
        exact ⟨by rw [hlen]; exact hpos, hstep⟩
    have htn : ((n : ℕ) : ℤ) = ⌈dist A B / step⌉ := by
      rw [hn]
      omega
    have h1 : dist A B / step ≤ (n : ℝ) := by
      have hc := Int.le_ceil (dist A B / step)
      rw [← htn] at hc
      exact_mod_cast hc
    have hstepsize : dist A B / (n : ℝ) ≤ step := by
      rw [div_le_iff₀ hnR]
      calc dist A B = dist A B / step * step := by field_simp
        _ ≤ (n : ℝ) * step := mul_le_mul_of_nonneg_right h1 hstep.le
        _ = step * n := mul_comm _ _
    refine ⟨?_, ?_, ?_, ?_⟩
    · rw [hsample]
      simp [hn]
    · rw [hsample, List.range_succ_eq_map]
      simp
    · rw [hsample, List.getLast?_eq_getElem?]
      simp only [List.length_map, List.length_range, Nat.add_sub_cancel]
      rw [List.getElem?_map, List.getElem?_range (by omega : n < n + 1)]
      simp only [Option.map_some']
      rw [div_self (ne_of_gt hnR)]
      rw [Option.some_inj]
      exact Prod.ext (by ring) (by ring)
    · intro i p q hp hq
      rw [hsample] at hp hq
      rw [List.getElem?_map] at hp hq
      have hi1 : i + 1 < n + 1 := by
        by_contra hcon
        push_neg at hcon
        rw [List.getElem?_eq_none (by simpa using hcon)] at hq
        simp at hq
      have hi : i < n + 1 := by omega
      rw [List.getElem?_range hi, Option.map_some', Option.some_inj] at hp
      rw [List.getElem?_range hi1, Option.map_some', Option.some_inj] at hq
      have hdist : dist p q = dist A B / (n : ℝ) := by
        rw [← hp, ← hq]
        unfold dist
        simp only
        push_cast
        have hx : (A.1 + (B.1 - A.1) * ((i : ℝ) / n)) - (A.1 + (B.1 - A.1) * (((i : ℝ) + 1) / n))
            = -((B.1 - A.1) / n) := by
          field_simp
          ring
        have hy : (A.2 + (B.2 - A.2) * ((i : ℝ) / n)) - (A.2 + (B.2 - A.2) * (((i : ℝ) + 1) / n))
            = -((B.2 - A.2) / n) := by
          field_simp
          ring
        rw [hx, hy]
        rw [show (-((B.1 - A.1) / n)) ^ 2 + (-((B.2 - A.2) / n)) ^ 2
              = ((B.1 - A.1) ^ 2 + (B.2 - A.2) ^ 2) / (n : ℝ) ^ 2 by ring]
        rw [Real.sqrt_div (by positivity) ((n : ℝ) ^ 2)]
        rw [Real.sqrt_sq hnR.le]
        congr 2
        ring
      exact ⟨hdist, by rw [hdist]; exact hstepsize⟩
  · intro hzero
    have hz : (mkLine A B).length ≤ 0 := by
      rw [hlen, hzero]
    unfold Line.sample
    rw [if_pos (Or.inl hz), if_neg (by rw [hlen, hzero]; exact lt_irrefl 0)]
    rfl

/-- C4 counterexample: the line from `(0,0)` to `(1,0)` sampled at step 1
emits 2 points, not `ceil(length/step) = 1` points as the claim states. -/
theorem C4_count_counterexample :
    ((mkLine ((0 : ℝ), (0 : ℝ)) ((1 : ℝ), (0 : ℝ))).sample 1).length ≠
      (⌈(mkLine ((0 : ℝ), (0 : ℝ)) ((1 : ℝ), (0 : ℝ))).length / 1⌉).toNat := by
  have hlen : (mkLine ((0 : ℝ), (0 : ℝ)) ((1 : ℝ), (0 : ℝ))).length = 1 := dist_0010
  have hceil : ⌈(mkLine ((0 : ℝ), (0 : ℝ)) ((1 : ℝ), (0 : ℝ))).length / 1⌉ = 1 := by
    rw [hlen]
    norm_num
  have hsample : ((mkLine ((0 : ℝ), (0 : ℝ)) ((1 : ℝ), (0 : ℝ))).sample 1).length = 2 := by
    unfold Line.sample
    rw [if_neg (by rw [hlen]; push_neg; norm_num)]
    simp only [List.length_map, List.length_range]
    rw [hceil]
    decide
  rw [hsample, hceil]
  decide

/-- C4 witness: the amended sampling theorem applied to the concrete line
`(0,0) → (1,0)` with step 1. -/
theorem C4_witness :
    (0 : ℝ) < 1 ∧
    ((0 < dist ((0 : ℝ), (0 : ℝ)) ((1 : ℝ), (0 : ℝ)) →
      ((mkLine ((0 : ℝ), (0 : ℝ)) ((1 : ℝ), (0 : ℝ))).sample 1).length =
        (⌈dist ((0 : ℝ), (0 : ℝ)) ((1 : ℝ), (0 : ℝ)) / 1⌉).toNat + 1 ∧
      ((mkLine ((0 : ℝ), (0 : ℝ)) ((1 : ℝ), (0 : ℝ))).sample 1).head? = some ((0 : ℝ), (0 : ℝ)) ∧
      ((mkLine ((0 : ℝ), (0 : ℝ)) ((1 : ℝ), (0 : ℝ))).sample 1).getLast? = some ((1 : ℝ), (0 : ℝ)) ∧
      (∀ i : ℕ, ∀ p q : Pt,
        ((mkLine ((0 : ℝ), (0 : ℝ)) ((1 : ℝ), (0 : ℝ))).sample 1)[i]? = some p →
        ((mkLine ((0 : ℝ), (0 : ℝ)) ((1 : ℝ), (0 : ℝ))).sample 1)[i+1]? = some q →
        dist p q = dist ((0 : ℝ), (0 : ℝ)) ((1 : ℝ), (0 : ℝ)) /
          ((⌈dist ((0 : ℝ), (0 : ℝ)) ((1 : ℝ), (0 : ℝ)) / 1⌉).toNat : ℝ) ∧ dist p q ≤ 1)) ∧
    (dist ((0 : ℝ), (0 : ℝ)) ((1 : ℝ), (0 : ℝ)) = 0 →
      (mkLine ((0 : ℝ), (0 : ℝ)) ((1 : ℝ), (0 : ℝ))).sample 1 = [((0 : ℝ), (0 : ℝ))])) :=
  ⟨by norm_num, C4_line_sample_points ((0 : ℝ), (0 : ℝ)) ((1 : ℝ), (0 : ℝ)) 1 (by norm_num)⟩

/-! ### C2 -/

/-- C2 counterexample: for `radius = -10`, the chord `1` of
`A = (0,0), B = (1,0)` exceeds `2 × radius = -20`, yet construction
succeeds — the source compares the chord against `2·|radius|`, not
`2·radius`. -/
theorem C2_negative_radius_counterexample :
    (mkArc ((0 : ℝ), (0 : ℝ)) ((1 : ℝ), (0 : ℝ)) (-10) "left").isOk = true ∧
      2 * (-10 : ℝ) < dist ((0 : ℝ), (0 : ℝ)) ((1 : ℝ), (0 : ℝ)) ∧
      dist ((0 : ℝ), (0 : ℝ)) ((1 : ℝ), (0 : ℝ)) ≠ 0 := by
  refine ⟨?_, by rw [dist_0010]; norm_num, by rw [dist_0010]; norm_num⟩
  apply mkArc_isOk_of
  · rw [dist_0010]
    norm_num
  · rw [dist_0010, abs_of_nonpos (by norm_num : (-10 : ℝ) ≤ 0)]
    norm_num

/-- C2 (amended): `ArcElement` construction fails exactly when the chord
`|B − A|` is zero or exceeds `2·|radius|` (for a non-negative radius this
is the claim's `2·radius`); in particular the tangent case
`chord = 2·radius` with `radius > 0` succeeds. -/
theorem C2_arc_feasibility (A B : Pt) (radius : ℝ) (side : String) :
    ((∃ e, mkArc A B radius side = .error e) ↔
      dist A B = 0 ∨ 2 * |radius| < dist A B) ∧
    (dist A B = 2 * radius → 0 < radius → (mkArc A B radius side).isOk = true) := by
  constructor
  · by_cases h0 : dist A B = 0
    · rw [mkArc_eq_error_chordZero A B radius side h0]
      simp [h0]
    · by_cases h1 : |radius| < dist A B / 2
      · rw [mkArc_eq_error_radiusTooSmall A B radius side h0 h1]
        constructor
        · intro _
          right
          linarith
        · intro _
          exact ⟨.radiusTooSmall, rfl⟩
      · obtain ⟨arc, harc⟩ := mkArc_ok_ex A B radius side h0 h1
        rw [harc]
        push_neg at h1
        constructor
        · rintro ⟨e, he⟩
          exact absurd he (by simp)
        · rintro (hc | hc)
          · exact absurd hc h0
          · linarith
  · intro htan hr
    apply mkArc_isOk_of
    · rw [htan]
      positivity
    · push_neg
      rw [htan, abs_of_pos hr]
      linarith

/-- C2 witness: the amended theorem applied at the tangent case
`A = (0,0)`, `B = (2,0)`, `radius = 1` — the chord equals `2·radius` and
construction succeeds. -/
theorem C2_witness :
    dist ((0 : ℝ), (0 : ℝ)) ((2 : ℝ), (0 : ℝ)) = 2 * (1 : ℝ) ∧ (0 : ℝ) < 1 ∧
      (mkArc ((0 : ℝ), (0 : ℝ)) ((2 : ℝ), (0 : ℝ)) 1 "left").isOk = true := by
  have h1 : dist ((0 : ℝ), (0 : ℝ)) ((2 : ℝ), (0 : ℝ)) = 2 * (1 : ℝ) := by
    rw [dist_0020]; norm_num
  exact ⟨h1, by norm_num,
    (C2_arc_feasibility ((0 : ℝ), (0 : ℝ)) ((2 : ℝ), (0 : ℝ)) 1 "left").2 h1 (by norm_num)⟩

/-! ### C5 -/

/-- C5 counterexample: for radius 1 and tangent points `2 + 1e-10` apart,
the chord exceeds `2×R` yet `validate_curve_parameters` reports no error —
the source tolerates an excess of up to `1e-9`. -/
theorem C5_epsilon_counterexample :
    (validate_curve_parameters ((0 : ℝ), (0 : ℝ)) ((2 + 1e-10 : ℝ), (0 : ℝ)) none none
        "arc" ⟨some 1, none⟩ 60).errors = [] ∧
      2 * (1 : ℝ) < dist ((0 : ℝ), (0 : ℝ)) ((2 + 1e-10 : ℝ), (0 : ℝ)) := by
  constructor
  · rw [validate_errors_eq, chord_eq_dist, dist_x_axis (2 + 1e-10) (by norm_num)]
    rw [if_pos (by decide : strStrip (strLower "arc") = "arc")]
    rw [if_neg (by norm_num : ¬ ((⟨some 1, none⟩ : CurveParams).radius.getD 0 ≤ 0))]
    rw [if_neg (by norm_num : ¬ (2 * (⟨some 1, none⟩ : CurveParams).radius.getD 0 + 1e-9
      < 2 + 1e-10))]
  · rw [dist_x_axis (2 + 1e-10) (by norm_num)]
    norm_num

/-- C5 (amended): with curve type `'arc'`, `validate_curve_parameters`
reports a hard error exactly when `R ≤ 0` or the chord exceeds
`2×R + 1e-9` (the source's tolerance) — so radius-range and
superelevation concerns surface only as non-fatal warnings — and every
curve-type string that normalizes to neither `'arc'` nor a spiral alias is
a hard error. -/
theorem C5_validate_arc_errors (P_left P_right : Pt) (lh rh : Option ℝ)
    (params : CurveParams) (speed : ℝ) (ct : String) :
    ((validate_curve_parameters P_left P_right lh rh "arc" params speed).errors ≠ [] ↔
      (params.radius.getD 0 ≤ 0 ∨
        2 * params.radius.getD 0 + 1e-9 < dist P_left P_right)) ∧
    (strStrip (strLower ct) ≠ "arc" → isSpiralType (strStrip (strLower ct)) = false →
      (validate_curve_parameters P_left P_right lh rh ct params speed).errors ≠ []) := by
  constructor
  · rw [validate_errors_eq, chord_eq_dist]
    rw [if_pos (by decide : strStrip (strLower "arc") = "arc")]
    by_cases hR : params.radius.getD 0 ≤ 0
    · rw [if_pos hR]
      simp [hR]
    · rw [if_neg hR]
      by_cases hc : 2 * params.radius.getD 0 + 1e-9 < dist P_left P_right
      · rw [if_pos hc]
        simp [hc]
      · rw [if_neg hc]
        simp [hR, hc]
  · intro h1 h2
    rw [validate_errors_eq, if_neg h1, if_neg (by simp [h2])]
    simp

/-- C5 witness: the unrecognized curve type `'foo'` yields a hard error,
via the amended theorem. -/
theorem C5_witness :
    strStrip (strLower "foo") ≠ "arc" ∧
      isSpiralType (strStrip (strLower "foo")) = false ∧
      (validate_curve_parameters ((0 : ℝ), (0 : ℝ)) ((1 : ℝ), (0 : ℝ)) none none "foo"
        ⟨some 1, none⟩ 60).errors ≠ [] :=
  ⟨by decide, by decide,
    (C5_validate_arc_errors ((0 : ℝ), (0 : ℝ)) ((1 : ℝ), (0 : ℝ)) none none
      ⟨some 1, none⟩ 60 "foo").2 (by decide) (by decide)⟩

/-! ### C6 -/

/-- C6 counterexample: on a two-element alignment, `move_element 0 5` (an
out-of-range target index) leaves the sequence unchanged — the element is
not moved to a clamped position as the claim states. -/
theorem C6_move_counterexample :
    ((⟨"t", [Element.line (mkLine ((0 : ℝ), (0 : ℝ)) ((1 : ℝ), (0 : ℝ))),
              Element.line (mkLine ((1 : ℝ), (0 : ℝ)) ((2 : ℝ), (0 : ℝ)))], 0⟩ :
        Alignment).move_element 0 5).elements =
      [Element.line (mkLine ((0 : ℝ), (0 : ℝ)) ((1 : ℝ), (0 : ℝ))),
       Element.line (mkLine ((1 : ℝ), (0 : ℝ)) ((2 : ℝ), (0 : ℝ)))] ∧
    [Element.line (mkLine ((0 : ℝ), (0 : ℝ)) ((1 : ℝ), (0 : ℝ))),
     Element.line (mkLine ((1 : ℝ), (0 : ℝ)) ((2 : ℝ), (0 : ℝ)))] ≠
      [Element.line (mkLine ((1 : ℝ), (0 : ℝ)) ((2 : ℝ), (0 : ℝ))),
       Element.line (mkLine ((0 : ℝ), (0 : ℝ)) ((1 : ℝ), (0 : ℝ)))] := by
  constructor
  · unfold Alignment.move_element
    rw [if_neg]
    intro hcon
    have h5 := hcon.2.2
    simp at h5
  · intro hcon
    simp only [List.cons.injEq, Element.line.injEq, mkLine, Line.mk.injEq,
      Prod.mk.injEq] at hcon
    norm_num at hcon

/-- C6 (amended): `insert_element` clamps any index into the valid range
and always inserts the element; `move_element` with out-of-range indices
is a no-op (not a clamped move); `remove_element` with an invalid index is
a no-op. -/
theorem C6_index_operations (a : Alignment) (el : Element)
    (index fidx tidx : ℤ) :
    ((a.insert_element index el).elements =
        pyInsert a.elements
          (if index < 0 then max 0 ((a.elements.length : ℤ) + 1 + index) else index).toNat
          el ∧
      (a.insert_element index el).elements.length = a.elements.length + 1 ∧
      el ∈ (a.insert_element index el).elements) ∧
    (¬ (0 ≤ index ∧ index < (a.elements.length : ℤ)) →
      a.remove_element index = a) ∧
    (¬ ((0 ≤ fidx ∧ fidx < (a.elements.length : ℤ)) ∧
        (0 ≤ tidx ∧ tidx ≤ (a.elements.length : ℤ))) →
      a.move_element fidx tidx = a) := by
  refine ⟨⟨rfl, ?_, ?_⟩, ?_, ?_⟩
  · exact pyInsert_length a.elements _ el
  · exact mem_pyInsert a.elements _ el
  · intro h
    unfold Alignment.remove_element
    rw [if_neg h]
  · intro h
    unfold Alignment.move_element
    rw [if_neg h]

/-- C6 witness: the amended theorem at a one-element alignment with an
out-of-range remove index and an out-of-range move target. -/
theorem C6_witness :
    (¬ ((0 : ℤ) ≤ 7 ∧ (7 : ℤ) < (((⟨"w", [Element.line (mkLine ((0 : ℝ), (0 : ℝ))
        ((1 : ℝ), (0 : ℝ)))], 1⟩ : Alignment)).elements.length : ℤ))) ∧
    ((⟨"w", [Element.line (mkLine ((0 : ℝ), (0 : ℝ)) ((1 : ℝ), (0 : ℝ)))], 1⟩ :
        Alignment).remove_element 7 =
      ⟨"w", [Element.line (mkLine ((0 : ℝ), (0 : ℝ)) ((1 : ℝ), (0 : ℝ)))], 1⟩) := by
  have h7 : ¬ ((0 : ℤ) ≤ 7 ∧ (7 : ℤ) < (((⟨"w", [Element.line (mkLine ((0 : ℝ), (0 : ℝ))
      ((1 : ℝ), (0 : ℝ)))], 1⟩ : Alignment)).elements.length : ℤ)) := by
    intro hcon
    have h2 := hcon.2
    simp at h2
  exact ⟨h7,
    (C6_index_operations ⟨"w", [Element.line (mkLine ((0 : ℝ), (0 : ℝ)) ((1 : ℝ), (0 : ℝ)))], 1⟩
      (Element.line (mkLine ((0 : ℝ), (0 : ℝ)) ((1 : ℝ), (0 : ℝ)))) 7 0 0).2.1 h7⟩

/-! ### C8 -/

/-- C8: every public mutating operation of `Alignment` re-establishes the
cache invariant `total_length = Σ element lengths` (for `remove_element`
and `move_element`, whose invalid-index paths leave the alignment
untouched, the invariant is preserved). -/
theorem C8_total_length_cache (a : Alignment) (h : alignInv a)
    (A B P0 P1 : Pt) (r sl : ℝ) (n : ℤ) (s : String)
    (index fidx tidx : ℤ) (el : Element) (d : AlignmentDict) (nm : String) :
    alignInv (a.add_line A B) ∧
    (∀ a', a.add_arc_by_points_radius A B r s = .ok a' → alignInv a') ∧
    alignInv (a.add_clothoid P0 P1 r sl n s) ∧
    alignInv (a.insert_element index el) ∧
    alignInv (a.remove_element index) ∧
    alignInv (a.move_element fidx tidx) ∧
    alignInv a.clear ∧
    alignInv (Alignment.from_dict d) ∧
    alignInv (mkAlignment nm) := by
  refine ⟨alignInv_rebuild _, ?_, alignInv_rebuild _, alignInv_rebuild _, ?_, ?_,
    alignInv_rebuild _, alignInv_rebuild _, alignInv_rebuild _⟩
  · intro a' ha'
    unfold Alignment.add_arc_by_points_radius at ha'
    cases harc : mkArc A B r s with
    | error e =>
      rw [harc] at ha'
      exact absurd ha' (by simp)
    | ok el' =>
      rw [harc] at ha'
      simp only [Except.ok.injEq] at ha'
      rw [← ha']
      exact alignInv_rebuild _
  · unfold Alignment.remove_element
    split_ifs
    · exact alignInv_rebuild _
    · exact h
  · unfold Alignment.move_element
    split_ifs
    · cases a.elements.get? fidx.toNat with
      | some el' => exact alignInv_rebuild _
      | none => exact h
    · exact h

/-- C8 witness: the invariant theorem applied to a freshly constructed
(empty) alignment, whose cache trivially satisfies the invariant. -/
theorem C8_witness :
    alignInv (mkAlignment "x") ∧
    alignInv ((mkAlignment "x").add_line ((0 : ℝ), (0 : ℝ)) ((1 : ℝ), (0 : ℝ))) ∧
    alignInv ((mkAlignment "x").remove_element 3) ∧
    alignInv ((mkAlignment "x").clear) :=
  have h0 : alignInv (mkAlignment "x") := alignInv_rebuild _
  have hall := C8_total_length_cache (mkAlignment "x") h0
    ((0 : ℝ), (0 : ℝ)) ((1 : ℝ), (0 : ℝ)) ((0 : ℝ), (0 : ℝ)) ((1 : ℝ), (0 : ℝ))
    1 1 8 "left" 3 0 0 (.line (mkLine ((0 : ℝ), (0 : ℝ)) ((1 : ℝ), (0 : ℝ)))) ⟨"d", []⟩ "y"
  ⟨h0, hall.1, hall.2.2.2.2.1, hall.2.2.2.2.2.2.1⟩

/-! ### C10 -/

/-- C10: for `step ≤ 0` no element's `sample` fails: a line returns its two
endpoints (a single start point at length 0), an arc returns `[A, B]`, and
a clothoid returns its cached polyline (which is never empty). -/
theorem C10_nonpositive_step_sampling (step : ℝ) (hstep : step ≤ 0) :
    (∀ A B : Pt, (mkLine A B).sample step =
      if 0 < dist A B then [A, B] else [A]) ∧
    (∀ arc : Arc, arc.sample step = [arc.A, arc.B]) ∧
    (∀ P0 P1 : Pt, ∀ r sl : ℝ, ∀ n : ℤ, ∀ s : String,
      (mkClothoid P0 P1 r sl n s).poly ≠ [] ∧
      (mkClothoid P0 P1 r sl n s).sample step = (mkClothoid P0 P1 r sl n s).poly) := by
  refine ⟨?_, ?_, ?_⟩
  · intro A B
    unfold Line.sample
    rw [if_pos (Or.inr hstep)]
    rfl
  · intro arc
    unfold Arc.sample
    rw [if_pos (Or.inr hstep)]
  · intro P0 P1 r sl n s
    have hpoly : (mkClothoid P0 P1 r sl n s).poly ≠ [] := by
      show build_poly P0 P1 r (max 0 sl) ((max 4 n).toNat)
        (if s = "left" ∨ s = "right" then s else "left") ≠ []
      simp only [build_poly]
      split_ifs <;> simp
    refine ⟨hpoly, ?_⟩
    obtain ⟨p0, rest, hp⟩ := List.exists_cons_of_ne_nil hpoly
    unfold Clothoid.sample
    rw [hp]
    exact if_pos hstep

/-- C10 witness: the theorem applied at `step = -1` to a concrete line,
arc value and clothoid. -/
theorem C10_witness :
    (-1 : ℝ) ≤ 0 ∧
    (mkLine ((0 : ℝ), (0 : ℝ)) ((1 : ℝ), (0 : ℝ))).sample (-1) =
      (if 0 < dist ((0 : ℝ), (0 : ℝ)) ((1 : ℝ), (0 : ℝ))
       then [((0 : ℝ), (0 : ℝ)), ((1 : ℝ), (0 : ℝ))] else [((0 : ℝ), (0 : ℝ))]) ∧
    (⟨((0 : ℝ), (0 : ℝ)), ((2 : ℝ), (0 : ℝ)), 1, "left", ((1 : ℝ), (0 : ℝ)),
        Real.pi, 0, true, Real.pi⟩ : Arc).sample (-1) =
      [((0 : ℝ), (0 : ℝ)), ((2 : ℝ), (0 : ℝ))] ∧
    (mkClothoid ((0 : ℝ), (0 : ℝ)) ((9 : ℝ), (0 : ℝ)) 50 10 8 "left").sample (-1) =
      (mkClothoid ((0 : ℝ), (0 : ℝ)) ((9 : ℝ), (0 : ℝ)) 50 10 8 "left").poly :=
  have hall := C10_nonpositive_step_sampling (-1) (by norm_num)
  ⟨by norm_num, hall.1 _ _, hall.2.1 _,
    (hall.2.2 ((0 : ℝ), (0 : ℝ)) ((9 : ℝ), (0 : ℝ)) 50 10 8 "left").2⟩

/-! ### C3 -/

/-- C3: for each of the three variants, `from_dict(to_dict(e))` succeeds
and reproduces an element whose `sample(step)` equals the original's for
every step (in the real-number embedding the round-tripped element is the
same value, so its samples agree exactly, hence within floating
tolerance). -/
theorem C3_serialization_roundtrip :
    (∀ A B : Pt, Line.from_dict (Line.to_dict (mkLine A B)) = mkLine A B ∧
      (∀ step : ℝ, (Line.from_dict (Line.to_dict (mkLine A B))).sample step =
        (mkLine A B).sample step)) ∧
    (∀ A B : Pt, ∀ r : ℝ, ∀ s : String, ∀ arc : Arc, mkArc A B r s = .ok arc →
      Arc.from_dict (Arc.to_dict arc) = .ok arc ∧
      (∀ arc' : Arc, Arc.from_dict (Arc.to_dict arc) = .ok arc' →
        ∀ step : ℝ, arc'.sample step = arc.sample step)) ∧
    (∀ P0 P1 : Pt, ∀ r sl : ℝ, ∀ n : ℤ, ∀ s : String,
      Clothoid.from_dict (Clothoid.to_dict (mkClothoid P0 P1 r sl n s)) =
        mkClothoid P0 P1 r sl n s ∧
      (∀ step : ℝ,
        (Clothoid.from_dict (Clothoid.to_dict (mkClothoid P0 P1 r sl n s))).sample step =
          (mkClothoid P0 P1 r sl n s).sample step)) := by
  refine ⟨?_, ?_, ?_⟩
  · intro A B
    exact ⟨rfl, fun _ => rfl⟩
  · intro A B r s arc h
    have hrt : Arc.from_dict (Arc.to_dict arc) = .ok arc := mkArc_roundtrip A B r s arc h
    refine ⟨hrt, ?_⟩
    intro arc' h' step
    rw [hrt] at h'
    simp only [Except.ok.injEq] at h'
    rw [h']
  · intro P0 P1 r sl n s
    exact ⟨mkClothoid_roundtrip P0 P1 r sl n s,
      fun _ => by rw [mkClothoid_roundtrip]⟩

/-- C3 witness: a concrete constructible arc (radius 5 over the chord
`(0,0) → (2,0)`) whose serialization round-trips to itself, via the
round-trip theorem. -/
theorem C3_witness :
    ∃ arc : Arc, mkArc ((0 : ℝ), (0 : ℝ)) ((2 : ℝ), (0 : ℝ)) 5 "left" = .ok arc ∧
      Arc.from_dict (Arc.to_dict arc) = .ok arc := by
  obtain ⟨arc, harc⟩ := mkArc_ok_ex ((0 : ℝ), (0 : ℝ)) ((2 : ℝ), (0 : ℝ)) 5 "left"
    (by rw [dist_0020]; norm_num)
    (by rw [dist_0020]; rw [show |(5 : ℝ)| = 5 from abs_of_pos (by norm_num)]; norm_num)
  exact ⟨arc, harc, (C3_serialization_roundtrip.2.1 _ _ _ _ arc harc).1⟩

/-! ### C7 -/

lemma foldl_min_const (c : ℝ) :
    ∀ (xs : List ℝ), (∀ y ∈ xs, y = c) → ∀ x, x = c → xs.foldl min x = c := by
  intro xs
  induction xs with
  | nil =>
    intro _ x hx
    simpa using hx
  | cons a as ih =>
    intro hall x hx
    simp only [List.foldl_cons]
    apply ih
    · intro y hy
      exact hall y (List.mem_cons_of_mem _ hy)
    · rw [hx, hall a (List.mem_cons_self _ _), min_self]

lemma foldl_max_const (c : ℝ) :
    ∀ (xs : List ℝ), (∀ y ∈ xs, y = c) → ∀ x, x = c → xs.foldl max x = c := by
  intro xs
  induction xs with
  | nil =>
    intro _ x hx
    simpa using hx
  | cons a as ih =>
    intro hall x hx
    simp only [List.foldl_cons]
    apply ih
    · intro y hy
      exact hall y (List.mem_cons_of_mem _ hy)
    · rw [hx, hall a (List.mem_cons_self _ _), max_self]

lemma listMin_const {c : ℝ} {l : List ℝ} (hne : l ≠ [])
    (hall : ∀ y ∈ l, y = c) : listMin l = c := by
  cases l with
  | nil => exact absurd rfl hne
  | cons x xs =>
    unfold listMin
    exact foldl_min_const c xs
      (fun y hy => hall y (List.mem_cons_of_mem _ hy)) x
      (hall x (List.mem_cons_self _ _))

lemma listMax_const {c : ℝ} {l : List ℝ} (hne : l ≠ [])
    (hall : ∀ y ∈ l, y = c) : listMax l = c := by
  cases l with
  | nil => exact absurd rfl hne
  | cons x xs =>
    unfold listMax
    exact foldl_max_const c xs
      (fun y hy => hall y (List.mem_cons_of_mem _ hy)) x
      (hall x (List.mem_cons_self _ _))

/-- C7: degenerate inputs yield empty results rather than failures — with
fewer than 3 point shapes the triangulation is the empty mesh, and on a
mesh whose vertices all share one elevation the contour extraction returns
the empty dictionary. -/
theorem C7_degenerate_inputs (shapes : List Shape) (manual : List (ℕ × ℕ × ℕ))
    (main_interval : ℝ) (sub_divisions : ℕ) (c : ℝ)
    (hflat : ∀ tri ∈ compute_triangulation shapes manual,
      tri.1.2.2 = c ∧ tri.2.1.2.2 = c ∧ tri.2.2.2.2 = c) :
    ((shapes.filterMap fun s =>
        match s with
        | .point x y z => some (x, y, z)
        | .other => none).length < 3 →
      compute_triangulation shapes manual = []) ∧
    compute_contours shapes manual main_interval sub_divisions = [] := by
  constructor
  · intro hlt
    simp only [compute_triangulation]
    rw [if_pos hlt]
  · simp only [compute_contours]
    cases htri : compute_triangulation shapes manual with
    | nil => simp
    | cons t ts =>
      rw [if_neg (by simp)]
      have hzs : ∀ y ∈ ((t :: ts).map fun tr =>
          [tr.1.2.2, tr.2.1.2.2, tr.2.2.2.2]).flatten, y = c := by
        intro y hy
        simp only [List.mem_flatten, List.mem_map] at hy
        obtain ⟨l, ⟨tr, htr, rfl⟩, hyl⟩ := hy
        have hf := hflat tr (by rw [htri]; exact htr)
        simp only [List.mem_cons, List.mem_singleton] at hyl
        rcases hyl with h | h | h | h
        · rw [h]; exact hf.1
        · rw [h]; exact hf.2.1
        · rw [h]; exact hf.2.2
        · exact absurd h (List.not_mem_nil y)
      have hne : (((t :: ts).map fun tr =>
          [tr.1.2.2, tr.2.1.2.2, tr.2.2.2.2]).flatten) ≠ [] := by
        simp
      rw [listMin_const hne hzs, listMax_const hne hzs]
      rw [if_pos rfl]

lemma tri3_eval : compute_triangulation
    [Shape.point 0 0 1, Shape.point 0 0 1, Shape.point 0 0 1] [] =
    [(((0 : ℝ), (0 : ℝ), (1 : ℝ)), ((0 : ℝ), (0 : ℝ), (1 : ℝ)), ((0 : ℝ), (0 : ℝ), (1 : ℝ))),
     (((0 : ℝ), (0 : ℝ), (1 : ℝ)), ((0 : ℝ), (0 : ℝ), (1 : ℝ)), ((0 : ℝ), (0 : ℝ), (1 : ℝ))),
     (((0 : ℝ), (0 : ℝ), (1 : ℝ)), ((0 : ℝ), (0 : ℝ), (1 : ℝ)), ((0 : ℝ), (0 : ℝ), (1 : ℝ)))] := by
  simp [compute_triangulation, triangulate_fallback, nearestZ, List.range_succ]

/-- C7 witness: three coincident points at elevation 1 triangulate to a
flat mesh on which contour extraction, via the theorem, returns the empty
result. -/
theorem C7_witness :
    (∀ tri ∈ compute_triangulation
        [Shape.point 0 0 1, Shape.point 0 0 1, Shape.point 0 0 1] [],
      tri.1.2.2 = 1 ∧ tri.2.1.2.2 = 1 ∧ tri.2.2.2.2 = 1) ∧
    compute_contours [Shape.point 0 0 1, Shape.point 0 0 1, Shape.point 0 0 1] [] 5 0 = [] := by
  have hflat : ∀ tri ∈ compute_triangulation
      [Shape.point 0 0 1, Shape.point 0 0 1, Shape.point 0 0 1] [],
      tri.1.2.2 = 1 ∧ tri.2.1.2.2 = 1 ∧ tri.2.2.2.2 = 1 := by
    rw [tri3_eval]
    intro tri htri
    simp only [List.mem_cons, List.not_mem_nil, or_false] at htri
    rcases htri with h | h | h <;> rw [h] <;> exact ⟨rfl, rfl, rfl⟩
  exact ⟨hflat,
    (C7_degenerate_inputs [Shape.point 0 0 1, Shape.point 0 0 1, Shape.point 0 0 1]
      [] 5 0 1 hflat).2⟩

/-! ### C1 -/

lemma atan2_mem (y x : ℝ) : -Real.pi < atan2 y x ∧ atan2 y x ≤ Real.pi :=
  ⟨Complex.neg_pi_lt_arg _, Complex.arg_le_pi _⟩

lemma vec_eq_of_atan2_eq (x1 y1 x2 y2 : ℝ)
    (habs : x1 ^ 2 + y1 ^ 2 = x2 ^ 2 + y2 ^ 2)
    (harg : atan2 y1 x1 = atan2 y2 x2) : x1 = x2 ∧ y1 = y2 := by
  have h1 : Complex.abs ⟨x1, y1⟩ = Complex.abs ⟨x2, y2⟩ := by
    rw [Complex.abs_apply, Complex.abs_apply, Complex.normSq_mk, Complex.normSq_mk]
    rw [show x1 * x1 + y1 * y1 = x1 ^ 2 + y1 ^ 2 by ring,
        show x2 * x2 + y2 * y2 = x2 ^ 2 + y2 ^ 2 by ring, habs]
  unfold atan2 at harg
  have h2 := Complex.ext_abs_arg h1 harg
  exact ⟨congrArg Complex.re h2, congrArg Complex.im h2⟩

lemma sq_center_add (x1 y1 x2 y2 t s : ℝ) (hs : s ≠ 0) :
    ((x1 + x2) / 2 + -(y2 - y1) / s * t - x1) ^ 2 +
      ((y1 + y2) / 2 + (x2 - x1) / s * t - y1) ^ 2 =
    ((x1 + x2) / 2 + -(y2 - y1) / s * t - x2) ^ 2 +
      ((y1 + y2) / 2 + (x2 - x1) / s * t - y2) ^ 2 := by
  field_simp
  ring

lemma sq_center_sub (x1 y1 x2 y2 t s : ℝ) (hs : s ≠ 0) :
    ((x1 + x2) / 2 - -(y2 - y1) / s * t - x1) ^ 2 +
      ((y1 + y2) / 2 - (x2 - x1) / s * t - y1) ^ 2 =
    ((x1 + x2) / 2 - -(y2 - y1) / s * t - x2) ^ 2 +
      ((y1 + y2) / 2 - (x2 - x1) / s * t - y2) ^ 2 := by
  field_simp
  ring

/-- When the direction flag is the sign of `d` (no flip) and `d ≠ 0`, the
two `±2π` adjustments of `ArcElement.__init__` leave `ang = d` unchanged. -/
lemma resolvedAng_no_flip (b : Bool) (d : ℝ) (hb : b = decide (0 < d)) (hdne : d ≠ 0) :
    (if ¬b ∧ 0 < (if b ∧ d < 0 then d + 2 * Real.pi else d)
     then (if b ∧ d < 0 then d + 2 * Real.pi else d) - 2 * Real.pi
     else (if b ∧ d < 0 then d + 2 * Real.pi else d)) = d := by
  subst hb
  rcases lt_or_gt_of_ne hdne with hneg | hpos
  · rw [decide_eq_false (not_lt.mpr hneg.le)]
    have hin : (if (false : Bool) ∧ d < 0 then d + 2 * Real.pi else d) = d :=
      if_neg fun hc => (Bool.false_ne_true hc.1).elim
    rw [hin]
    exact if_neg fun hc => absurd hc.2 (not_lt.mpr hneg.le)
  · rw [decide_eq_true hpos]
    have hin : (if (true : Bool) ∧ d < 0 then d + 2 * Real.pi else d) = d :=
      if_neg fun hc => absurd hc.2 (not_lt.mpr hpos.le)
    rw [hin]
    exact if_neg fun hc => hc.1 rfl

/-- Inversion on a successful `mkArc`: the derived fields satisfy their
defining relations — the center is equidistant from the two endpoints, the
tangent angles are the `atan2` angles about the center, the direction flag
is the (possibly flipped) sign of the normalized delta, and the length is
`|radius · ang|` for the resolved angle. -/
lemma mkArc_ok_spec (A B : Pt) (r : ℝ) (s : String) (arc : Arc)
    (h : mkArc A B r s = .ok arc) :
    dist arc.center A = dist arc.center B ∧
    arc.start_angle = atan2 (A.2 - arc.center.2) (A.1 - arc.center.1) ∧
    arc.end_angle = atan2 (B.2 - arc.center.2) (B.1 - arc.center.1) ∧
    arc.ccw = (if Real.pi < |normalize_angle (arc.end_angle - arc.start_angle)|
               then !(decide (0 < normalize_angle (arc.end_angle - arc.start_angle)))
               else decide (0 < normalize_angle (arc.end_angle - arc.start_angle))) ∧
    arc.length = |r * arc.resolvedAng| := by
  by_cases h0 : dist A B = 0
  · rw [mkArc_eq_error_chordZero A B r s h0] at h
    exact absurd h (by simp)
  by_cases h1 : |r| < dist A B / 2
  · rw [mkArc_eq_error_radiusTooSmall A B r s h0 h1] at h
    exact absurd h (by simp)
  simp only [mkArc] at h
  rw [chord_eq_dist, if_neg h0, if_neg h1] at h
  simp only [Except.ok.injEq] at h
  subst h
  refine ⟨?_, rfl, rfl, rfl, rfl⟩
  by_cases hs : (if s = "left" ∨ s = "right" then s else "left") = "left"
  · rw [if_pos hs]
    unfold dist
    congr 1
    exact sq_center_add A.1 A.2 B.1 B.2 _ (dist A B) h0
  · rw [if_neg hs]
    unfold dist
    congr 1
    exact sq_center_sub A.1 A.2 B.1 B.2 _ (dist A B) h0

/-- C1: for every feasible arc (nonzero chord not exceeding `2R`),
construction succeeds; the center is equidistant from `A` and `B` (so
within `1e-6`), the length is `R` times the absolute angular span, the
span lies in `(0, 2π]`, and the resolved direction always selects the
shorter arc: the span is in fact at most `π`. -/
theorem C1_arc_center_length_span (A B : Pt) (radius : ℝ) (side : String)
    (h0 : dist A B ≠ 0) (h2R : dist A B ≤ 2 * radius) :
    ∃ arc, mkArc A B radius side = .ok arc ∧
      |dist arc.center arc.A - dist arc.center arc.B| ≤ 1e-6 ∧
      arc.length = radius * arc.span ∧
      0 < arc.span ∧ arc.span ≤ 2 * Real.pi ∧ arc.span ≤ Real.pi := by
  have hd : 0 < dist A B := (dist_nonneg' A B).lt_of_ne (Ne.symm h0)
  have hr : 0 < radius := by linarith
  have h1 : ¬ |radius| < dist A B / 2 := by
    rw [abs_of_pos hr]
    push_neg
    linarith
  obtain ⟨arc, harc⟩ := mkArc_ok_ex A B radius side h0 h1
  obtain ⟨hA, hB, hrad, -⟩ := mkArc_ok_fields A B radius side arc harc
  obtain ⟨heq, hst, hen, hccw, hlen⟩ := mkArc_ok_spec A B radius side arc harc
  set d := normalize_angle (arc.end_angle - arc.start_angle) with hdef
  have hdmem := normalize_angle_mem (arc.end_angle - arc.start_angle)
  rw [← hdef] at hdmem
  have hpi := Real.pi_pos
  have hamem := atan2_mem (A.2 - arc.center.2) (A.1 - arc.center.1)
  have hbmem := atan2_mem (B.2 - arc.center.2) (B.1 - arc.center.1)
  have hdne : d ≠ 0 := by
    intro hzero
    have hsub : arc.end_angle - arc.start_angle = 0 := by
      apply normalize_angle_eq_zero _ _ hzero
      · rw [hst, hen]
        linarith [hamem.1, hamem.2, hbmem.1, hbmem.2]
      · rw [hst, hen]
        linarith [hamem.1, hamem.2, hbmem.1, hbmem.2]
    have hangeq : atan2 (A.2 - arc.center.2) (A.1 - arc.center.1)
        = atan2 (B.2 - arc.center.2) (B.1 - arc.center.1) := by
      rw [← hst, ← hen]
      linarith
    have habs : (A.1 - arc.center.1) ^ 2 + (A.2 - arc.center.2) ^ 2
        = (B.1 - arc.center.1) ^ 2 + (B.2 - arc.center.2) ^ 2 := by
      have hsq := congrArg (fun x => x ^ 2) heq
      simp only [dist] at hsq
      rw [Real.sq_sqrt (by positivity), Real.sq_sqrt (by positivity)] at hsq
      linear_combination hsq
    obtain ⟨hx, hy⟩ := vec_eq_of_atan2_eq _ _ _ _ habs hangeq
    apply h0
    unfold dist
    rw [show (A.1 - B.1) ^ 2 + (A.2 - B.2) ^ 2 = 0 by nlinarith [hx, hy]]
    exact Real.sqrt_zero
  have hflip : ¬ Real.pi < |d| :=
    not_lt.mpr (abs_le.mpr ⟨by linarith [hdmem.1], hdmem.2⟩)
  have hccw' : arc.ccw = decide (0 < d) := by
    rw [hccw, if_neg hflip]
  have hresolve : arc.resolvedAng = d := by
    unfold Arc.resolvedAng
    rw [← hdef, hccw']
    exact resolvedAng_no_flip _ d rfl hdne
  have hspan : arc.span = |d| := by
    unfold Arc.span
    rw [hresolve]
  refine ⟨arc, harc, ?_, ?_, ?_, ?_, ?_⟩
  · rw [hA, hB, heq, sub_self, abs_zero]
    norm_num
  · rw [hlen, hspan, hresolve, abs_mul, abs_of_pos hr]
  · rw [hspan]
    exact abs_pos.mpr hdne
  · rw [hspan]
    have : |d| ≤ Real.pi := abs_le.mpr ⟨by linarith [hdmem.1], hdmem.2⟩
    linarith
  · rw [hspan]
    exact abs_le.mpr ⟨by linarith [hdmem.1], hdmem.2⟩

/-- C1 witness: the theorem applied to the concrete feasible arc over the
chord `(0,0) → (2,0)` with radius 5. -/
theorem C1_witness :
    dist ((0 : ℝ), (0 : ℝ)) ((2 : ℝ), (0 : ℝ)) ≠ 0 ∧
    dist ((0 : ℝ), (0 : ℝ)) ((2 : ℝ), (0 : ℝ)) ≤ 2 * (5 : ℝ) ∧
    ∃ arc, mkArc ((0 : ℝ), (0 : ℝ)) ((2 : ℝ), (0 : ℝ)) 5 "left" = .ok arc ∧
      |dist arc.center arc.A - dist arc.center arc.B| ≤ 1e-6 ∧
      arc.length = 5 * arc.span ∧
      0 < arc.span ∧ arc.span ≤ 2 * Real.pi ∧ arc.span ≤ Real.pi :=
  have hne : dist ((0 : ℝ), (0 : ℝ)) ((2 : ℝ), (0 : ℝ)) ≠ 0 := by
    rw [dist_0020]
    norm_num
  have hle : dist ((0 : ℝ), (0 : ℝ)) ((2 : ℝ), (0 : ℝ)) ≤ 2 * (5 : ℝ) := by
    rw [dist_0020]
    norm_num
  ⟨hne, hle, C1_arc_center_length_span ((0 : ℝ), (0 : ℝ)) ((2 : ℝ), (0 : ℝ)) 5 "left" hne hle⟩

end Roadfar
